import Mathlib

/-!
A shallow embedding of the graceful-shutdown orchestration layer of
`src/client/cli/src/runner.rs` (crate `sc-cli`), together with theorems about
its invocation modes, its shutdown race, its task dispatcher and its
execution-pool gauges.

Modelling conventions:
* a one-shot future is represented by its poll behaviour, a function
  `Nat → Option (Except E Unit)` giving the response to the k-th poll
  (`none` is `Poll::Pending`, `some r` is `Poll::Ready(r)`);
* the `futures` `Fuse` combinator is an explicit state (`Fuse`) recording how
  often the inner future has been polled and whether it has completed;
* the `select!` race of `main` is a step-indexed loop (`runSelect`) driven by
  an arbitrary schedule choosing which branch is polled at each step, with
  fuel bounding the number of steps (the race may never resolve);
* `TaskManager` is the external collaborator; the embedding tracks its
  aggregate completion future and the number of `terminate()` calls;
* functions that log or pass resources to subcommand `run` entry points emit
  explicit event traces so that ordering and frame properties can be stated.
-/

set_option maxHeartbeats 1000000

namespace ScCli

/-- The process-wide gauges `TOKIO_THREADS_ALIVE` and `TOKIO_THREADS_TOTAL`
from `sp_utils::metrics`, modelled as integer counters. -/
structure Gauges where
  tokioThreadsAlive : Int
  tokioThreadsTotal : Int
deriving Repr, DecidableEq

/-- The `on_thread_start` hook installed by `build_runtime`:
`TOKIO_THREADS_ALIVE.inc(); TOKIO_THREADS_TOTAL.inc()`. -/
def onThreadStart (g : Gauges) : Gauges :=
  { tokioThreadsAlive := g.tokioThreadsAlive + 1
    tokioThreadsTotal := g.tokioThreadsTotal + 1 }

/-- The `on_thread_stop` hook installed by `build_runtime`:
`TOKIO_THREADS_ALIVE.dec()`. -/
def onThreadStop (g : Gauges) : Gauges :=
  { g with tokioThreadsAlive := g.tokioThreadsAlive - 1 }

/-- A worker-thread lifecycle event of the execution pool built by
`build_runtime`. -/
inductive ThreadEvent where
  | start
  | stop
deriving Repr, DecidableEq

/-- Folding the gauge hooks of `build_runtime` over a worker-thread lifecycle
trace. -/
def applyThreadEvents : List ThreadEvent → Gauges → Gauges
  | [], g => g
  | ThreadEvent.start :: es, g => applyThreadEvents es (onThreadStart g)
  | ThreadEvent.stop :: es, g => applyThreadEvents es (onThreadStop g)

/-- Number of worker-thread starts in a lifecycle trace. -/
def countStart (es : List ThreadEvent) : Nat :=
  es.countP (fun e => match e with | ThreadEvent.start => true | ThreadEvent.stop => false)

/-- Number of worker-thread stops in a lifecycle trace. -/
def countStop (es : List ThreadEvent) : Nat :=
  es.countP (fun e => match e with | ThreadEvent.start => false | ThreadEvent.stop => true)

/-- A pool lifecycle trace is balanced when every thread that started has also
stopped, which is what holds once the pool is fully dropped. -/
def balancedTrace (es : List ThreadEvent) : Prop :=
  countStart es = countStop es

instance (es : List ThreadEvent) : Decidable (balancedTrace es) := by
  unfold balancedTrace
  infer_instance

/-- The state of the `futures` `Fuse` combinator around a raw one-shot future:
the raw poll behaviour, the number of polls delivered to the inner future so
far, and whether the inner future has reported completion. -/
structure Fuse (E : Type) where
  inner : Nat → Option (Except E Unit)
  innerPolls : Nat
  done : Bool

/-- The inner future was never polled again after a poll that reported
completion: every inner poll except possibly the last returned pending. -/
def Fuse.neverPolledAfterDone {E : Type} (f : Fuse E) : Prop :=
  ∀ k, k + 1 < f.innerPolls → f.inner k = none

/-- Every poll delivered to the inner future so far returned pending. -/
def Fuse.pendingSoFar {E : Type} (f : Fuse E) : Prop :=
  ∀ k, k < f.innerPolls → f.inner k = none

/-- The three branches of the `select!` in the unix `main`: the `SIGINT`
listener `t1`, the `SIGTERM` listener `t2`, and the fused primary `t3`. -/
inductive Branch where
  | sigInt
  | sigTerm
  | prim
deriving Repr, DecidableEq

/-- State of the unix `select!` loop: poll counts of the two signal listeners
and the fuse state of the primary operation. -/
structure SelSt (E : Type) where
  ci : Nat
  ct : Nat
  f : Fuse E

/-- Which branch of the unix `select!` resolved first, carrying the primary's
own result when the primary won. -/
inductive SelWinner (E : Type) where
  | int
  | term
  | prim (r : Except E Unit)

/-- The `select!` race of the unix `main`: at each step the schedule picks a
branch to poll; signal listeners respond according to their readiness
functions (`ib`, `tb`, indexed by the listener's own poll count); the primary
is polled through its fuse (a terminated fused future is skipped, never
re-polled).  The loop resolves with the first branch to report readiness, and
`none` means the race had not resolved within `fuel` steps. -/
def runSelect {E : Type} (sched : Nat → Branch) (ib tb : Nat → Bool) :
    Nat → Nat → SelSt E → Option (SelWinner E × SelSt E)
  | 0, _, _ => none
  | fuel + 1, step, s =>
    match sched step with
    | Branch.sigInt =>
        if ib s.ci then some (SelWinner.int, { s with ci := s.ci + 1 })
        else runSelect sched ib tb fuel (step + 1) { s with ci := s.ci + 1 }
    | Branch.sigTerm =>
        if tb s.ct then some (SelWinner.term, { s with ct := s.ct + 1 })
        else runSelect sched ib tb fuel (step + 1) { s with ct := s.ct + 1 }
    | Branch.prim =>
        if s.f.done then runSelect sched ib tb fuel (step + 1) s
        else
          match s.f.inner s.f.innerPolls with
          | some res =>
              some (SelWinner.prim res,
                { s with f := { s.f with innerPolls := s.f.innerPolls + 1, done := true } })
          | none =>
              runSelect sched ib tb fuel (step + 1)
                { s with f := { s.f with innerPolls := s.f.innerPolls + 1 } }

/-- The shared error kind of the shutdown race (`Box<dyn std::error::Error>`
in the source): a signal-registration failure or the primary's own error. -/
inductive MainError (E : Type) where
  | sigReg
  | primary (e : E)
deriving Repr, DecidableEq

/-- The `e.to_string()` conversion applied by `run_until_exit` and
`run_node_until_exit` to the race's boxed error. -/
def mainErrorString {E : Type} (estr : E → String) : MainError E → String
  | MainError.sigReg => "signal registration failed"
  | MainError.primary e => estr e

/-- Conversion of the primary's result into the race's shared error kind,
as performed by the `?` in the `res = t3 => res?` arm of `select!`. -/
def toSharedResult {E : Type} : Except E Unit → Except (MainError E) Unit
  | Except.ok _ => Except.ok ()
  | Except.error e => Except.error (MainError.primary e)

/-- The unix `main`: registers the `SIGINT` and `SIGTERM` listeners (either
registration may fail), then races them against the already-fused primary
with `select!`.  A signal winning yields `Ok(())`; the primary winning yields
its own result coerced to the shared error kind. -/
def mainUnix {E : Type} (regInt regTerm : Bool) (sched : Nat → Branch)
    (ib tb : Nat → Bool) (fuel : Nat) (f : Fuse E) :
    Option (Except (MainError E) Unit × SelSt E) :=
  if regInt = false then some (Except.error MainError.sigReg, ⟨0, 0, f⟩)
  else if regTerm = false then some (Except.error MainError.sigReg, ⟨0, 0, f⟩)
  else
    match runSelect sched ib tb fuel 0 ⟨0, 0, f⟩ with
    | none => none
    | some (SelWinner.int, s) => some (Except.ok (), s)
    | some (SelWinner.term, s) => some (Except.ok (), s)
    | some (SelWinner.prim r, s) => some (toSharedResult r, s)

/-- The two branches of the `select!` in the non-unix `main`: the fused
`ctrl_c` listener `t1` and the fused primary `t2`. -/
inductive BranchCC where
  | ctrlC
  | prim
deriving Repr, DecidableEq

/-- State of the non-unix `select!` loop. -/
structure SelStCC (E : Type) where
  cc : Nat
  f : Fuse E

/-- Winner of the non-unix `select!`. -/
inductive SelWinnerCC (E : Type) where
  | ctrlC
  | prim (r : Except E Unit)

/-- The `select!` race of the non-unix `main`, with the `ctrl_c` notification
as the single interrupt branch. -/
def runSelectCC {E : Type} (sched : Nat → BranchCC) (cb : Nat → Bool) :
    Nat → Nat → SelStCC E → Option (SelWinnerCC E × SelStCC E)
  | 0, _, _ => none
  | fuel + 1, step, s =>
    match sched step with
    | BranchCC.ctrlC =>
        if cb s.cc then some (SelWinnerCC.ctrlC, { s with cc := s.cc + 1 })
        else runSelectCC sched cb fuel (step + 1) { s with cc := s.cc + 1 }
    | BranchCC.prim =>
        if s.f.done then runSelectCC sched cb fuel (step + 1) s
        else
          match s.f.inner s.f.innerPolls with
          | some res =>
              some (SelWinnerCC.prim res,
                { s with f := { s.f with innerPolls := s.f.innerPolls + 1, done := true } })
          | none =>
              runSelectCC sched cb fuel (step + 1)
                { s with f := { s.f with innerPolls := s.f.innerPolls + 1 } }

/-- The non-unix `main`: races the fused `ctrl_c` listener against the
already-fused primary. -/
def mainCC {E : Type} (sched : Nat → BranchCC) (cb : Nat → Bool) (fuel : Nat)
    (f : Fuse E) : Option (Except (MainError E) Unit × SelStCC E) :=
  match runSelectCC sched cb fuel 0 ⟨0, f⟩ with
  | none => none
  | some (SelWinnerCC.ctrlC, s) => some (Except.ok (), s)
  | some (SelWinnerCC.prim r, s) => some (toSharedResult r, s)

/-- The `sc_service::TaskManager` collaborator, observed through its aggregate
completion/failure future and the number of `terminate()` calls made on it. -/
structure TaskManager (E : Type) where
  future : Nat → Option (Except E Unit)
  terminateCalls : Nat

/-- The `TaskManager::terminate` cancellation request. -/
def TaskManager.terminate {E : Type} (tm : TaskManager E) : TaskManager E :=
  { tm with terminateCalls := tm.terminateCalls + 1 }

/-- Observable events of `run_until_exit`: entering the shutdown race,
calling `TaskManager::terminate`, and the worker-thread stops fired when
`drop(tokio_runtime)` joins the pool's workers. -/
inductive RaceEvent where
  | raceEntered
  | terminateCalled
  | threadStopped
deriving Repr, DecidableEq

/-- The `run_until_exit` helper: fuses the supplied future, blocks on the
shutdown race `main`, propagates a race error with `?` after `to_string`
conversion, and otherwise terminates the task manager and drops the (already
idle) runtime, stopping its `workers` worker threads.  The returned select
state exposes how the fused primary was polled. -/
def run_until_exit {E : Type} (workers : Nat) (regInt regTerm : Bool)
    (sched : Nat → Branch) (ib tb : Nat → Bool) (fuel : Nat) (estr : E → String)
    (future : Nat → Option (Except E Unit)) (task_manager : TaskManager E) :
    Option (Except String Unit × TaskManager E × SelSt E × List RaceEvent) :=
  match mainUnix regInt regTerm sched ib tb fuel ⟨future, 0, false⟩ with
  | none => none
  | some (Except.error e, s) =>
      some (Except.error (mainErrorString estr e), task_manager, s, [RaceEvent.raceEntered])
  | some (Except.ok _, s) =>
      some (Except.ok (), task_manager.terminate, s,
        RaceEvent.raceEntered :: RaceEvent.terminateCalled ::
          List.replicate workers RaceEvent.threadStopped)

/-- The `sc_service::TaskType` classification of a dispatched operation. -/
inductive TaskType where
  | Async
  | Blocking
deriving Repr, DecidableEq

/-- A synchronous closure handed to the blocking-thread bridge by the task
executor; the only shape the source produces is
`move || futures::executor::block_on(fut)`. -/
inductive BlockingClosure (Op : Type) where
  | blockOn (op : Op)
deriving Repr, DecidableEq

/-- Body of a future spawned onto the execution pool by the task executor:
either the dispatched operation itself, or the intermediary
`async move { tokio::task::spawn_blocking(...) }`. -/
inductive AsyncBody (Op : Type) where
  | bare (op : Op)
  | spawnBlocking (c : BlockingClosure Op)
deriving Repr, DecidableEq

/-- The single action a call of the task executor performs:
`runtime_handle.spawn(body)`. -/
inductive ExecutorAction (Op : Type) where
  | spawn (body : AsyncBody Op)
deriving Repr, DecidableEq

/-- The `task_executor` closure built in `Runner::new`, capturing the pool
handle: `Async` operations are spawned directly; `Blocking` operations are
wrapped in a spawned intermediary that hands them to `spawn_blocking` wrapped
in `block_on`. -/
def task_executor {Op : Type} (fut : Op) : TaskType → ExecutorAction Op
  | TaskType.Async => ExecutorAction.spawn (AsyncBody.bare fut)
  | TaskType.Blocking =>
      ExecutorAction.spawn (AsyncBody.spawnBlocking (BlockingClosure.blockOn fut))

/-- Execution events produced when the pool runs an action dispatched by the
task executor: scheduling onto the pool, running an operation on a
cooperative worker, handing an operation to the dedicated blocking-thread
bridge from within pool context, and running it to completion synchronously
on that dedicated thread. -/
inductive ExecEvent (Op : Type) where
  | scheduledOnPool (body : AsyncBody Op)
  | ranOnWorker (op : Op)
  | handedToBlockingBridge (op : Op)
  | ranToCompletionOnBlockingThread (op : Op)
deriving Repr, DecidableEq

/-- How the pool executes a dispatched action: a bare body polls the
operation on a cooperative worker; the intermediary body first runs on a
worker, calls `spawn_blocking` from within that pool context, and the closure
`block_on(fut)` then runs the operation to completion synchronously on the
dedicated blocking thread. -/
def interpretAction {Op : Type} : ExecutorAction Op → List (ExecEvent Op)
  | ExecutorAction.spawn (AsyncBody.bare op) =>
      [ExecEvent.scheduledOnPool (AsyncBody.bare op), ExecEvent.ranOnWorker op]
  | ExecutorAction.spawn (AsyncBody.spawnBlocking (BlockingClosure.blockOn op)) =>
      [ExecEvent.scheduledOnPool (AsyncBody.spawnBlocking (BlockingClosure.blockOn op)),
        ExecEvent.handedToBlockingBridge op,
        ExecEvent.ranToCompletionOnBlockingThread op]

/-- The resolved `sc_service::Configuration` as far as `runner.rs` inspects
it: the cloned chain specification, network and database sections, and an
opaque remainder consumed only by the builder/initialiser. -/
structure Configuration (CS NC DB R : Type) where
  chain_spec : CS
  network : NC
  database : DB
  rest : R
deriving Repr, DecidableEq

/-- The `Runner` object: owns the configuration (the tokio runtime it also
owns is represented by the race parameters threaded to the invocation
modes). -/
structure Runner (CS NC DB R : Type) where
  config : Configuration CS NC DB R
deriving Repr, DecidableEq

/-- The fields logged by `Runner::print_node_infos`, in source order. -/
inductive LogField where
  | implName
  | version
  | authorship
  | chainSpecName
  | nodeName
  | role
  | database
  | nativeRuntime
deriving Repr, DecidableEq

/-- The eight `info!` lines of `Runner::print_node_infos`, in the order the
source emits them. -/
def print_node_infos : List LogField :=
  [LogField.implName, LogField.version, LogField.authorship, LogField.chainSpecName,
    LogField.nodeName, LogField.role, LogField.database, LogField.nativeRuntime]

/-- The `sc_cli::Subcommand` surface, each variant carrying its own `run`
entry point.  `BuildSpec` and `PurgeChain` run synchronously; the other
variants build a bounded future from their resources. -/
inductive Subcommand (CS NC DB CL BA IQ E : Type) where
  | buildSpec (run : CS → NC → Except String Unit)
  | exportBlocks (run : CL → DB → Nat → Option (Except E Unit))
  | importBlocks (run : CL → IQ → Nat → Option (Except E Unit))
  | checkBlock (run : CL → IQ → Nat → Option (Except E Unit))
  | revert (run : CL → BA → Nat → Option (Except E Unit))
  | purgeChain (run : DB → Except String Unit)
  | exportState (run : CL → CS → Nat → Option (Except E Unit))

/-- True exactly for the subcommand variants that invoke the builder and race
their future through `run_until_exit`. -/
def isAsyncVariant {CS NC DB CL BA IQ E : Type} :
    Subcommand CS NC DB CL BA IQ E → Bool
  | Subcommand.buildSpec _ => false
  | Subcommand.exportBlocks _ => true
  | Subcommand.importBlocks _ => true
  | Subcommand.checkBlock _ => true
  | Subcommand.revert _ => true
  | Subcommand.purgeChain _ => false
  | Subcommand.exportState _ => true

/-- Observable events of `Runner::run_subcommand`: invoking the builder,
passing resources to a variant's `run` entry point (each constructor records
exactly the values handed over), and the race events forwarded from
`run_until_exit`. -/
inductive SubEvent (CS NC DB CL BA IQ : Type) where
  | builderInvoked
  | ranBuildSpec (cs : CS) (nc : NC)
  | ranExportBlocks (c : CL) (db : DB)
  | ranImportBlocks (c : CL) (iq : IQ)
  | ranCheckBlock (c : CL) (iq : IQ)
  | ranRevert (c : CL) (ba : BA)
  | ranPurgeChain (db : DB)
  | ranExportState (c : CL) (cs : CS)
  | raceEntered
  | terminateCalled
  | threadStopped
deriving Repr, DecidableEq

/-- Embedding of `run_until_exit` events into the `run_subcommand` event
vocabulary. -/
def toSubEvent {CS NC DB CL BA IQ : Type} : RaceEvent → SubEvent CS NC DB CL BA IQ
  | RaceEvent.raceEntered => SubEvent.raceEntered
  | RaceEvent.terminateCalled => SubEvent.terminateCalled
  | RaceEvent.threadStopped => SubEvent.threadStopped

/-- Folding the gauge hooks over a `run_subcommand` event trace: only
worker-thread stops (from dropping the runtime) touch the gauges. -/
def subGauges {CS NC DB CL BA IQ : Type} :
    List (SubEvent CS NC DB CL BA IQ) → Gauges → Gauges
  | [], g => g
  | SubEvent.threadStopped :: es, g => subGauges es (onThreadStop g)
  | _ :: es, g => subGauges es g

/-- Recognises the builder-invocation event. -/
def isBuilderInvoked {CS NC DB CL BA IQ : Type} : SubEvent CS NC DB CL BA IQ → Bool
  | SubEvent.builderInvoked => true
  | _ => false

/-- Recognises the events by which `run_subcommand` engages the execution
pool: entering the race, terminating the task manager, stopping a worker. -/
def engagesPool {CS NC DB CL BA IQ : Type} : SubEvent CS NC DB CL BA IQ → Bool
  | SubEvent.raceEntered => true
  | SubEvent.terminateCalled => true
  | SubEvent.threadStopped => true
  | _ => false

/-- Number of builder invocations recorded in a `run_subcommand` trace. -/
def countBuilderInvocations {CS NC DB CL BA IQ : Type}
    (evs : List (SubEvent CS NC DB CL BA IQ)) : Nat :=
  evs.countP isBuilderInvoked

/-- The `Runner::run_subcommand` invocation mode.  The clones of the chain
specification, network section and database section are taken from the
configuration before anything else; the builder is then invoked (only by the
asynchronous variants) and each variant passes its own resources to its
`run` entry point, racing the resulting future through `run_until_exit`.
The result carries the invocation's outcome, the final task manager when one
was ever produced, and the event trace. -/
def run_subcommand {CS NC DB R CL BA IQ E SvcE : Type}
    (self : Runner CS NC DB R) (subcommand : Subcommand CS NC DB CL BA IQ E)
    (builder : Configuration CS NC DB R → Except SvcE (CL × BA × IQ × TaskManager E))
    (svcStr : SvcE → String) (workers : Nat) (regInt regTerm : Bool)
    (sched : Nat → Branch) (ib tb : Nat → Bool) (fuel : Nat) (estr : E → String) :
    Option (Except String Unit × Option (TaskManager E) ×
      List (SubEvent CS NC DB CL BA IQ)) :=
  let chain_spec := self.config.chain_spec
  let network_config := self.config.network
  let db_config := self.config.database
  match subcommand with
  | Subcommand.buildSpec cmd =>
      some (cmd chain_spec network_config, none,
        [SubEvent.ranBuildSpec chain_spec network_config])
  | Subcommand.exportBlocks cmd =>
      match builder self.config with
      | Except.error e => some (Except.error (svcStr e), none, [SubEvent.builderInvoked])
      | Except.ok (client, _backend, _import_queue, task_manager) =>
          match run_until_exit workers regInt regTerm sched ib tb fuel estr
              (cmd client db_config) task_manager with
          | none => none
          | some (res, tm, _s, evs) =>
              some (res, some tm,
                SubEvent.builderInvoked :: SubEvent.ranExportBlocks client db_config ::
                  evs.map toSubEvent)
  | Subcommand.importBlocks cmd =>
      match builder self.config with
      | Except.error e => some (Except.error (svcStr e), none, [SubEvent.builderInvoked])
      | Except.ok (client, _backend, import_queue, task_manager) =>
          match run_until_exit workers regInt regTerm sched ib tb fuel estr
              (cmd client import_queue) task_manager with
          | none => none
          | some (res, tm, _s, evs) =>
              some (res, some tm,
                SubEvent.builderInvoked :: SubEvent.ranImportBlocks client import_queue ::
                  evs.map toSubEvent)
  | Subcommand.checkBlock cmd =>
      match builder self.config with
      | Except.error e => some (Except.error (svcStr e), none, [SubEvent.builderInvoked])
      | Except.ok (client, _backend, import_queue, task_manager) =>
          match run_until_exit workers regInt regTerm sched ib tb fuel estr
              (cmd client import_queue) task_manager with
          | none => none
          | some (res, tm, _s, evs) =>
              some (res, some tm,
                SubEvent.builderInvoked :: SubEvent.ranCheckBlock client import_queue ::
                  evs.map toSubEvent)
  | Subcommand.revert cmd =>
      match builder self.config with
      | Except.error e => some (Except.error (svcStr e), none, [SubEvent.builderInvoked])
      | Except.ok (client, backend, _import_queue, task_manager) =>
          match run_until_exit workers regInt regTerm sched ib tb fuel estr
              (cmd client backend) task_manager with
          | none => none
          | some (res, tm, _s, evs) =>
              some (res, some tm,
                SubEvent.builderInvoked :: SubEvent.ranRevert client backend ::
                  evs.map toSubEvent)
  | Subcommand.purgeChain cmd =>
      some (cmd db_config, none, [SubEvent.ranPurgeChain db_config])
  | Subcommand.exportState cmd =>
      match builder self.config with
      | Except.error e => some (Except.error (svcStr e), none, [SubEvent.builderInvoked])
      | Except.ok (client, _backend, _import_queue, task_manager) =>
          match run_until_exit workers regInt regTerm sched ib tb fuel estr
              (cmd client chain_spec) task_manager with
          | none => none
          | some (res, tm, _s, evs) =>
              some (res, some tm,
                SubEvent.builderInvoked :: SubEvent.ranExportState client chain_spec ::
                  evs.map toSubEvent)

/-- Observable events of `Runner::run_node_until_exit`, in the order the
source performs them. -/
inductive NodeEvent where
  | printedNodeInfos (fields : List LogField)
  | initialiseCalled
  | raceEntered
  | terminateCalled
  | droppedTaskManager
deriving Repr, DecidableEq

/-- The full ordered step list of `run_node_until_exit`. -/
def nodeSteps : List NodeEvent :=
  [NodeEvent.printedNodeInfos print_node_infos, NodeEvent.initialiseCalled,
    NodeEvent.raceEntered, NodeEvent.terminateCalled, NodeEvent.droppedTaskManager]

/-- The `Runner::run_node_until_exit` invocation mode: logs the node
information, calls the initialiser (propagating its error with `?`), blocks
on the race of the task manager's fused aggregate future against the
interrupt listeners (propagating a race error with `?` after `to_string`),
then terminates and drops the task manager. -/
def run_node_until_exit {CS NC DB R E SvcE : Type} (self : Runner CS NC DB R)
    (initialise : Configuration CS NC DB R → Except SvcE (TaskManager E))
    (svcStr : SvcE → String) (regInt regTerm : Bool) (sched : Nat → Branch)
    (ib tb : Nat → Bool) (fuel : Nat) (estr : E → String) :
    Option (Except String Unit × Option (TaskManager E) × List NodeEvent) :=
  match initialise self.config with
  | Except.error e =>
      some (Except.error (svcStr e), none,
        [NodeEvent.printedNodeInfos print_node_infos, NodeEvent.initialiseCalled])
  | Except.ok task_manager =>
      match mainUnix regInt regTerm sched ib tb fuel ⟨task_manager.future, 0, false⟩ with
      | none => none
      | some (Except.error e, _s) =>
          some (Except.error (mainErrorString estr e), some task_manager,
            [NodeEvent.printedNodeInfos print_node_infos, NodeEvent.initialiseCalled,
              NodeEvent.raceEntered])
      | some (Except.ok _, _s) =>
          some (Except.ok (), some task_manager.terminate,
            [NodeEvent.printedNodeInfos print_node_infos, NodeEvent.initialiseCalled,
              NodeEvent.raceEntered, NodeEvent.terminateCalled,
              NodeEvent.droppedTaskManager])

/-- The `Runner::sync_run` invocation mode: calls the supplied synchronous
function on the configuration, with no pool interaction. -/
def sync_run {CS NC DB R : Type} (self : Runner CS NC DB R)
    (runner : Configuration CS NC DB R → Except String Unit) : Except String Unit :=
  runner self.config

/-- The `Runner::async_run` invocation mode: the supplied function produces
the primary future and a task manager (its error aborting with `?` before the
race), and the pair is handed to `run_until_exit`. -/
def async_run {CS NC DB R E : Type} (self : Runner CS NC DB R)
    (runner : Configuration CS NC DB R →
      Except String ((Nat → Option (Except E Unit)) × TaskManager E))
    (workers : Nat) (regInt regTerm : Bool) (sched : Nat → Branch)
    (ib tb : Nat → Bool) (fuel : Nat) (estr : E → String) :
    Option (Except String Unit × Option (TaskManager E) × List RaceEvent) :=
  match runner self.config with
  | Except.error e => some (Except.error e, none, [])
  | Except.ok (future, task_manager) =>
      match run_until_exit workers regInt regTerm sched ib tb fuel estr
          future task_manager with
      | none => none
      | some (res, tm, _s, evs) => some (res, some tm, evs)

/-- Per-event statement that every configuration-derived value recorded as
passed to a subcommand `run` entry point equals the corresponding field of
the given configuration — the snapshot cloned before the builder ran. -/
def snapshotProp {CS NC DB R CL BA IQ : Type} (cfg : Configuration CS NC DB R) :
    SubEvent CS NC DB CL BA IQ → Prop
  | SubEvent.ranBuildSpec cs nc => cs = cfg.chain_spec ∧ nc = cfg.network
  | SubEvent.ranExportBlocks _ db => db = cfg.database
  | SubEvent.ranPurgeChain db => db = cfg.database
  | SubEvent.ranExportState _ cs => cs = cfg.chain_spec
  | _ => True

/-! ## Lemmas about the select loops -/

/-- Master lemma about the unix `select!` loop: the inner primary future is
never replaced; the fuse discipline (no poll delivered after the first
completing poll, all polls pending while not done) is preserved; and when a
signal branch wins the primary's completion flag is untouched. -/
theorem runSelect_spec {E : Type} (sched : Nat → Branch) (ib tb : Nat → Bool) :
    ∀ (fuel step : Nat) (s : SelSt E) (w : SelWinner E) (s' : SelSt E),
      runSelect sched ib tb fuel step s = some (w, s') →
      s'.f.inner = s.f.inner ∧
      (s.f.neverPolledAfterDone → (s.f.done = false → s.f.pendingSoFar) →
        s'.f.neverPolledAfterDone ∧ (s'.f.done = false → s'.f.pendingSoFar)) ∧
      ((w = SelWinner.int ∨ w = SelWinner.term) → s'.f.done = s.f.done) := by
  intro fuel
  induction fuel with
  | zero =>
    intro step s w s' h
    simp [runSelect] at h
  | succ n ih =>
    intro step s w s' h
    simp only [runSelect] at h
    cases hs : sched step with
    | sigInt =>
      rw [hs] at h
      by_cases hib : ib s.ci = true
      · simp only [hib, if_true, Option.some.injEq, Prod.mk.injEq] at h
        obtain ⟨hw, hs'⟩ := h
        subst hs'
        exact ⟨rfl, fun h1 h2 => ⟨h1, h2⟩, fun _ => rfl⟩
      · simp only [hib, if_false, Bool.false_eq_true] at h
        exact ih (step + 1) { s with ci := s.ci + 1 } w s' h
    | sigTerm =>
      rw [hs] at h
      by_cases htb : tb s.ct = true
      · simp only [htb, if_true, Option.some.injEq, Prod.mk.injEq] at h
        obtain ⟨hw, hs'⟩ := h
        subst hs'
        exact ⟨rfl, fun h1 h2 => ⟨h1, h2⟩, fun _ => rfl⟩
      · simp only [htb, if_false, Bool.false_eq_true] at h
        exact ih (step + 1) { s with ct := s.ct + 1 } w s' h
    | prim =>
      rw [hs] at h
      by_cases hd : s.f.done = true
      · simp only [hd, if_true] at h
        obtain ⟨hinner, hinv, hdone⟩ := ih (step + 1) s w s' h
        exact ⟨hinner, hinv, hdone⟩
      · have hd' : s.f.done = false := by
          cases hdd : s.f.done
          · rfl
          · exact absurd hdd hd
        simp only [hd', if_false, Bool.false_eq_true] at h
        cases hi : s.f.inner s.f.innerPolls with
        | some res =>
          rw [hi] at h
          simp only [Option.some.injEq, Prod.mk.injEq] at h
          obtain ⟨hw, hs'⟩ := h
          subst hs'
          refine ⟨rfl, fun h1 h2 => ⟨?_, ?_⟩, fun hcontra => ?_⟩
          · intro k hk
            exact h2 hd' k (by simpa using Nat.lt_of_succ_lt_succ hk)
          · intro hfalse
            simp at hfalse
          · rcases hcontra with hc | hc <;> (rw [← hw] at hc; cases hc)
        | none =>
          rw [hi] at h
          obtain ⟨hinner, hinv, hdone⟩ := ih (step + 1) _ w s' h
          refine ⟨hinner, ?_, ?_⟩
          · intro h1 h2
            refine hinv ?_ ?_
            · intro k hk
              exact h2 hd' k (by simpa using Nat.lt_of_succ_lt_succ hk)
            · intro _
              intro k hk
              rcases Nat.lt_succ_iff_lt_or_eq.mp (by simpa using hk) with hlt | heq
              · exact h2 hd' k hlt
              · subst heq; exact hi
          · intro hw
            rw [hdone hw, hd']

/-- Master lemma about the non-unix `select!` loop, mirroring
`runSelect_spec` with `ctrl_c` as the single interrupt branch. -/
theorem runSelectCC_spec {E : Type} (sched : Nat → BranchCC) (cb : Nat → Bool) :
    ∀ (fuel step : Nat) (s : SelStCC E) (w : SelWinnerCC E) (s' : SelStCC E),
      runSelectCC sched cb fuel step s = some (w, s') →
      s'.f.inner = s.f.inner ∧
      (s.f.neverPolledAfterDone → (s.f.done = false → s.f.pendingSoFar) →
        s'.f.neverPolledAfterDone ∧ (s'.f.done = false → s'.f.pendingSoFar)) ∧
      (w = SelWinnerCC.ctrlC → s'.f.done = s.f.done) := by
  intro fuel
  induction fuel with
  | zero =>
    intro step s w s' h
    simp [runSelectCC] at h
  | succ n ih =>
    intro step s w s' h
    simp only [runSelectCC] at h
    cases hs : sched step with
    | ctrlC =>
      rw [hs] at h
      by_cases hcb : cb s.cc = true
      · simp only [hcb, if_true, Option.some.injEq, Prod.mk.injEq] at h
        obtain ⟨hw, hs'⟩ := h
        subst hs'
        exact ⟨rfl, fun h1 h2 => ⟨h1, h2⟩, fun _ => rfl⟩
      · simp only [hcb, if_false, Bool.false_eq_true] at h
        exact ih (step + 1) { s with cc := s.cc + 1 } w s' h
    | prim =>
      rw [hs] at h
      by_cases hd : s.f.done = true
      · simp only [hd, if_true] at h
        exact ih (step + 1) s w s' h
      · have hd' : s.f.done = false := by
          cases hdd : s.f.done
          · rfl
          · exact absurd hdd hd
        simp only [hd', if_false, Bool.false_eq_true] at h
        cases hi : s.f.inner s.f.innerPolls with
        | some res =>
          rw [hi] at h
          simp only [Option.some.injEq, Prod.mk.injEq] at h
          obtain ⟨hw, hs'⟩ := h
          subst hs'
          refine ⟨rfl, fun h1 h2 => ⟨?_, ?_⟩, fun hcontra => ?_⟩
          · intro k hk
            exact h2 hd' k (by simpa using Nat.lt_of_succ_lt_succ hk)
          · intro hfalse
            simp at hfalse
          · rw [← hw] at hcontra; cases hcontra
        | none =>
          rw [hi] at h
          obtain ⟨hinner, hinv, hdone⟩ := ih (step + 1) _ w s' h
          refine ⟨hinner, ?_, ?_⟩
          · intro h1 h2
            refine hinv ?_ ?_
            · intro k hk
              exact h2 hd' k (by simpa using Nat.lt_of_succ_lt_succ hk)
            · intro _
              intro k hk
              rcases Nat.lt_succ_iff_lt_or_eq.mp (by simpa using hk) with hlt | heq
              · exact h2 hd' k hlt
              · subst heq; exact hi
          · intro hw
            rw [hdone hw, hd']

/-- A freshly fused future satisfies the fuse discipline vacuously. -/
theorem freshFuse_inv {E : Type} (inner : Nat → Option (Except E Unit)) :
    (Fuse.mk inner 0 false).neverPolledAfterDone ∧
      ((Fuse.mk inner 0 false).done = false → (Fuse.mk inner 0 false).pendingSoFar) := by
  constructor
  · intro k hk
    exact absurd hk (by simp [Fuse.neverPolledAfterDone])
  · intro _ k hk
    exact absurd hk (by simp)

/-- Whatever the unix race returns, the fused primary it was given keeps its
inner future and that future is never polled again after its first completing
poll. -/
theorem mainUnix_fuse {E : Type} (regInt regTerm : Bool) (sched : Nat → Branch)
    (ib tb : Nat → Bool) (fuel : Nat) (inner : Nat → Option (Except E Unit))
    (res : Except (MainError E) Unit) (s : SelSt E)
    (h : mainUnix regInt regTerm sched ib tb fuel ⟨inner, 0, false⟩ = some (res, s)) :
    s.f.inner = inner ∧ (∀ k, k + 1 < s.f.innerPolls → inner k = none) := by
  unfold mainUnix at h
  split at h
  · simp only [Option.some.injEq, Prod.mk.injEq] at h
    obtain ⟨-, hs⟩ := h
    subst hs
    exact ⟨rfl, fun k hk => absurd hk (by simp)⟩
  · split at h
    · simp only [Option.some.injEq, Prod.mk.injEq] at h
      obtain ⟨-, hs⟩ := h
      subst hs
      exact ⟨rfl, fun k hk => absurd hk (by simp)⟩
    · cases hsel : runSelect sched ib tb fuel 0 (⟨0, 0, ⟨inner, 0, false⟩⟩ : SelSt E) with
      | none => rw [hsel] at h; cases h
      | some p =>
        obtain ⟨w, s'⟩ := p
        rw [hsel] at h
        obtain ⟨hinner, hinv, -⟩ :=
          runSelect_spec sched ib tb fuel 0 ⟨0, 0, ⟨inner, 0, false⟩⟩ w s' hsel
        obtain ⟨hnp, -⟩ := hinv (freshFuse_inv inner).1 (freshFuse_inv inner).2
        have hinner' : s'.f.inner = inner := hinner
        have hs : s = s' := by
          cases w with
          | int => simp only [Option.some.injEq, Prod.mk.injEq] at h; exact h.2.symm
          | term => simp only [Option.some.injEq, Prod.mk.injEq] at h; exact h.2.symm
          | prim r => simp only [Option.some.injEq, Prod.mk.injEq] at h; exact h.2.symm
        subst hs
        refine ⟨hinner', fun k hk => ?_⟩
        rw [← hinner']
        exact hnp k hk

/-- The alive gauge after a worker-thread lifecycle trace is the initial
value plus starts minus stops. -/
theorem applyThreadEvents_alive (es : List ThreadEvent) :
    ∀ g : Gauges, (applyThreadEvents es g).tokioThreadsAlive =
      g.tokioThreadsAlive + (countStart es : Int) - (countStop es : Int) := by
  induction es with
  | nil => intro g; simp [applyThreadEvents, countStart, countStop]
  | cons e es ih =>
    intro g
    cases e with
    | start =>
      simp only [applyThreadEvents]
      rw [ih]
      simp only [countStart, countStop, List.countP_cons, onThreadStart]
      push_cast
      ring
    | stop =>
      simp only [applyThreadEvents]
      rw [ih]
      simp only [countStart, countStop, List.countP_cons, onThreadStop]
      push_cast
      ring

/-- Start/stop counts distribute over concatenated lifecycle traces. -/
theorem countStart_append (l₁ l₂ : List ThreadEvent) :
    countStart (l₁ ++ l₂) = countStart l₁ + countStart l₂ := by
  simp [countStart, List.countP_append]

/-- Stop counts distribute over concatenated lifecycle traces. -/
theorem countStop_append (l₁ l₂ : List ThreadEvent) :
    countStop (l₁ ++ l₂) = countStop l₁ + countStop l₂ := by
  simp [countStop, List.countP_append]

/-- A concatenation of balanced lifecycle traces is balanced. -/
theorem balancedTrace_join (cycles : List (List ThreadEvent))
    (h : ∀ c ∈ cycles, balancedTrace c) : balancedTrace cycles.flatten := by
  induction cycles with
  | nil => simp [balancedTrace, countStart, countStop]
  | cons c cs ih =>
    simp only [List.flatten_cons, balancedTrace, countStart_append, countStop_append]
    have h1 : balancedTrace c := h c (List.mem_cons_self c cs)
    have h2 : balancedTrace cs.flatten := ih (fun c' hc' => h c' (List.mem_cons_of_mem c hc'))
    unfold balancedTrace at h1 h2
    omega

/-- A forwarded race event never looks like a builder invocation. -/
theorem isBuilderInvoked_toSubEvent {CS NC DB CL BA IQ : Type} (e : RaceEvent) :
    isBuilderInvoked (toSubEvent e : SubEvent CS NC DB CL BA IQ) = false := by
  cases e <;> rfl

/-- Race events forwarded into a subcommand trace contribute no builder
invocations. -/
theorem countBuilderInvocations_map {CS NC DB CL BA IQ : Type} (evs : List RaceEvent) :
    countBuilderInvocations
      (evs.map (toSubEvent : RaceEvent → SubEvent CS NC DB CL BA IQ)) = 0 := by
  induction evs with
  | nil => rfl
  | cons e es ih =>
    simp only [List.map_cons, countBuilderInvocations, List.countP_cons,
      isBuilderInvoked_toSubEvent] at ih ⊢
    simpa using ih

/-- Race events forwarded into a subcommand trace are only race entries,
terminate calls or thread stops. -/
theorem mem_map_toSubEvent {CS NC DB CL BA IQ : Type}
    {x : SubEvent CS NC DB CL BA IQ} {r : List RaceEvent}
    (h : x ∈ r.map (toSubEvent : RaceEvent → SubEvent CS NC DB CL BA IQ)) :
    x = SubEvent.raceEntered ∨ x = SubEvent.terminateCalled ∨
      x = SubEvent.threadStopped := by
  rcases List.mem_map.mp h with ⟨e, _, rfl⟩
  cases e <;> simp [toSubEvent]

/-- The trace of a successful asynchronous variant holds exactly one builder
invocation. -/
theorem countBuilderInvocations_async_trace {CS NC DB CL BA IQ : Type}
    (x : SubEvent CS NC DB CL BA IQ) (hx : isBuilderInvoked x = false)
    (r : List RaceEvent) :
    countBuilderInvocations
      (SubEvent.builderInvoked :: x ::
        r.map (toSubEvent : RaceEvent → SubEvent CS NC DB CL BA IQ)) = 1 := by
  have h0 : countBuilderInvocations
      (r.map (toSubEvent : RaceEvent → SubEvent CS NC DB CL BA IQ)) = 0 :=
    countBuilderInvocations_map r
  simp only [countBuilderInvocations, List.countP_cons] at h0 ⊢
  rw [h0, hx]
  rfl

/-- A run event recorded by a variant's `run` call never comes from the
forwarded race events. -/
theorem ran_not_mem_raceTrace {CS NC DB CL BA IQ : Type}
    {x : SubEvent CS NC DB CL BA IQ} (r : List RaceEvent)
    (hx : engagesPool x = false)
    (h : x ∈ r.map (toSubEvent : RaceEvent → SubEvent CS NC DB CL BA IQ)) : False := by
  rcases mem_map_toSubEvent h with h1 | h1 | h1 <;> subst h1 <;>
    simp [engagesPool] at hx

/-! ## Claim theorems -/

/-- C7: each worker-thread start of a pool built by `build_runtime`
increments both the threads-alive and threads-total gauges, each
worker-thread stop decrements threads-alive (leaving threads-total
unchanged), and over any number of pool construct/destroy cycles — each a
balanced worker lifecycle trace — the threads-alive gauge returns to its
pre-construction value. -/
theorem C7_pool_gauges :
    (∀ g : Gauges, (onThreadStart g).tokioThreadsAlive = g.tokioThreadsAlive + 1 ∧
      (onThreadStart g).tokioThreadsTotal = g.tokioThreadsTotal + 1) ∧
    (∀ g : Gauges, (onThreadStop g).tokioThreadsAlive = g.tokioThreadsAlive - 1 ∧
      (onThreadStop g).tokioThreadsTotal = g.tokioThreadsTotal) ∧
    (∀ (cycles : List (List ThreadEvent)) (g : Gauges),
      (∀ c ∈ cycles, balancedTrace c) →
      (applyThreadEvents cycles.flatten g).tokioThreadsAlive = g.tokioThreadsAlive) := by
  refine ⟨fun g => ⟨rfl, rfl⟩, fun g => ⟨rfl, rfl⟩, fun cycles g h => ?_⟩
  have hb := balancedTrace_join cycles h
  rw [applyThreadEvents_alive]
  unfold balancedTrace at hb
  rw [hb]
  ring

/-- C7 witness: two construct/destroy cycles (one and two workers) leave the
alive gauge at its initial value. -/
theorem C7_pool_gauges_witness :
    (applyThreadEvents
        ([[ThreadEvent.start, ThreadEvent.stop],
          [ThreadEvent.start, ThreadEvent.start, ThreadEvent.stop, ThreadEvent.stop]] :
            List (List ThreadEvent)).flatten ⟨5, 7⟩).tokioThreadsAlive =
      (⟨5, 7⟩ : Gauges).tokioThreadsAlive :=
  C7_pool_gauges.2.2
    [[ThreadEvent.start, ThreadEvent.stop],
      [ThreadEvent.start, ThreadEvent.start, ThreadEvent.stop, ThreadEvent.stop]]
    ⟨5, 7⟩ (by decide)

/-- C6: the task executor spawns an `Async` operation directly onto the
pool; for a `Blocking` operation it spawns an intermediary onto the pool,
and only from within that intermediary the operation is handed to the
blocking-thread bridge and run to completion synchronously on the dedicated
blocking thread — never on a cooperative worker. -/
theorem C6_task_executor :
    ∀ (Op : Type) (op : Op),
      task_executor op TaskType.Async = ExecutorAction.spawn (AsyncBody.bare op) ∧
      interpretAction (task_executor op TaskType.Async) =
        [ExecEvent.scheduledOnPool (AsyncBody.bare op), ExecEvent.ranOnWorker op] ∧
      task_executor op TaskType.Blocking =
        ExecutorAction.spawn (AsyncBody.spawnBlocking (BlockingClosure.blockOn op)) ∧
      interpretAction (task_executor op TaskType.Blocking) =
        [ExecEvent.scheduledOnPool (AsyncBody.spawnBlocking (BlockingClosure.blockOn op)),
          ExecEvent.handedToBlockingBridge op,
          ExecEvent.ranToCompletionOnBlockingThread op] ∧
      (interpretAction (task_executor op TaskType.Blocking)).all
        (fun e => match e with | ExecEvent.ranOnWorker _ => false | _ => true) = true :=
  fun _ _ => ⟨rfl, rfl, rfl, rfl, rfl⟩

/-- C3: the synchronous variants `BuildSpec` and `PurgeChain` never invoke
the builder and never engage the pool — their trace holds no builder
invocation, no race, no terminate call, no thread stop, and leaves the
gauges unchanged — and the subcommand's own result is returned directly. -/
theorem C3_sync_subcommands :
    ∀ (CS NC DB R CL BA IQ E SvcE : Type) (self : Runner CS NC DB R)
      (builder : Configuration CS NC DB R → Except SvcE (CL × BA × IQ × TaskManager E))
      (svcStr : SvcE → String) (workers : Nat) (regInt regTerm : Bool)
      (sched : Nat → Branch) (ib tb : Nat → Bool) (fuel : Nat) (estr : E → String)
      (bcmd : CS → NC → Except String Unit) (pcmd : DB → Except String Unit) (g : Gauges),
      run_subcommand self (Subcommand.buildSpec bcmd) builder svcStr workers regInt
          regTerm sched ib tb fuel estr =
        some (bcmd self.config.chain_spec self.config.network, none,
          [SubEvent.ranBuildSpec self.config.chain_spec self.config.network]) ∧
      run_subcommand self (Subcommand.purgeChain pcmd) builder svcStr workers regInt
          regTerm sched ib tb fuel estr =
        some (pcmd self.config.database, none,
          [SubEvent.ranPurgeChain self.config.database]) ∧
      countBuilderInvocations
        [(SubEvent.ranBuildSpec self.config.chain_spec self.config.network :
          SubEvent CS NC DB CL BA IQ)] = 0 ∧
      countBuilderInvocations
        [(SubEvent.ranPurgeChain self.config.database : SubEvent CS NC DB CL BA IQ)] = 0 ∧
      ([(SubEvent.ranBuildSpec self.config.chain_spec self.config.network :
          SubEvent CS NC DB CL BA IQ)].all (fun e => !engagesPool e)) = true ∧
      ([(SubEvent.ranPurgeChain self.config.database :
          SubEvent CS NC DB CL BA IQ)].all (fun e => !engagesPool e)) = true ∧
      subGauges [(SubEvent.ranBuildSpec self.config.chain_spec self.config.network :
        SubEvent CS NC DB CL BA IQ)] g = g ∧
      subGauges [(SubEvent.ranPurgeChain self.config.database :
        SubEvent CS NC DB CL BA IQ)] g = g := by
  intros
  exact ⟨rfl, rfl, rfl, rfl, rfl, rfl, rfl, rfl⟩

/-- C2: in the shutdown race `main` (both platform variants), when an
interrupt or terminate notification resolves first the race returns
`Ok(())` and the discarded primary never completed (every poll it received
returned pending, and the fuse marks it not done, so it is never polled
again); when the primary resolves first the race's result is exactly the
primary's own result converted to the shared error kind. -/
theorem C2_shutdown_race :
    (∀ (E : Type) (sched : Nat → Branch) (ib tb : Nat → Bool) (fuel : Nat)
        (inner : Nat → Option (Except E Unit)) (w : SelWinner E) (s' : SelSt E),
      runSelect sched ib tb fuel 0 ⟨0, 0, ⟨inner, 0, false⟩⟩ = some (w, s') →
        ((w = SelWinner.int ∨ w = SelWinner.term) →
          mainUnix true true sched ib tb fuel ⟨inner, 0, false⟩ =
              some (Except.ok (), s') ∧
            s'.f.done = false ∧ (∀ k, k < s'.f.innerPolls → inner k = none)) ∧
        (∀ r, w = SelWinner.prim r →
          mainUnix true true sched ib tb fuel ⟨inner, 0, false⟩ =
            some (toSharedResult r, s'))) ∧
    (∀ (E : Type) (sched : Nat → BranchCC) (cb : Nat → Bool) (fuel : Nat)
        (inner : Nat → Option (Except E Unit)) (w : SelWinnerCC E) (s' : SelStCC E),
      runSelectCC sched cb fuel 0 ⟨0, ⟨inner, 0, false⟩⟩ = some (w, s') →
        (w = SelWinnerCC.ctrlC →
          mainCC sched cb fuel ⟨inner, 0, false⟩ = some (Except.ok (), s') ∧
            s'.f.done = false ∧ (∀ k, k < s'.f.innerPolls → inner k = none)) ∧
        (∀ r, w = SelWinnerCC.prim r →
          mainCC sched cb fuel ⟨inner, 0, false⟩ = some (toSharedResult r, s'))) := by
  constructor
  · intro E sched ib tb fuel inner w s' h
    obtain ⟨hinner, hinv, hdone⟩ :=
      runSelect_spec sched ib tb fuel 0 ⟨0, 0, ⟨inner, 0, false⟩⟩ w s' h
    have hinner' : s'.f.inner = inner := hinner
    obtain ⟨-, hpend⟩ := hinv (freshFuse_inv inner).1 (freshFuse_inv inner).2
    constructor
    · intro hw
      have hd : s'.f.done = false := hdone hw
      refine ⟨?_, hd, fun k hk => ?_⟩
      · rcases hw with hw | hw <;> subst hw <;> simp [mainUnix, h]
      · rw [← hinner']
        exact hpend hd k hk
    · intro r hw
      subst hw
      simp [mainUnix, h]
  · intro E sched cb fuel inner w s' h
    obtain ⟨hinner, hinv, hdone⟩ :=
      runSelectCC_spec sched cb fuel 0 ⟨0, ⟨inner, 0, false⟩⟩ w s' h
    have hinner' : s'.f.inner = inner := hinner
    obtain ⟨-, hpend⟩ := hinv (freshFuse_inv inner).1 (freshFuse_inv inner).2
    constructor
    · intro hw
      have hd : s'.f.done = false := hdone hw
      refine ⟨?_, hd, fun k hk => ?_⟩
      · subst hw; simp [mainCC, h]
      · rw [← hinner']
        exact hpend hd k hk
    · intro r hw
      subst hw
      simp [mainCC, h]

/-- C2 witness: with the interrupt listener ready at once, the unix race
returns success with the primary unpolled. -/
theorem C2_shutdown_race_witness :
    mainUnix true true (fun _ => Branch.sigInt) (fun _ => true) (fun _ => false) 1
        ⟨fun _ => (none : Option (Except String Unit)), 0, false⟩ =
        some (Except.ok (),
          ⟨1, 0, ⟨fun _ => (none : Option (Except String Unit)), 0, false⟩⟩) ∧
      (⟨1, 0, ⟨fun _ => (none : Option (Except String Unit)), 0, false⟩⟩ :
          SelSt String).f.done = false ∧
      (∀ k, k < (⟨1, 0, ⟨fun _ => (none : Option (Except String Unit)), 0, false⟩⟩ :
          SelSt String).f.innerPolls →
        (fun _ => (none : Option (Except String Unit))) k = none) :=
  (C2_shutdown_race.1 String (fun _ => Branch.sigInt) (fun _ => true) (fun _ => false) 1
      (fun _ => none) SelWinner.int
      ⟨1, 0, ⟨fun _ => none, 0, false⟩⟩ rfl).1 (Or.inl rfl)

/-- C9: `run_until_exit` wraps the caller's raw primary future with a fuse
before racing it, so whatever the race's outcome the raw future is never
polled again after the poll on which it first reported completion; and
`async_run` races its caller-produced future through exactly this wrapper. -/
theorem C9_fuse_discipline :
    (∀ (E : Type) (workers : Nat) (regInt regTerm : Bool) (sched : Nat → Branch)
        (ib tb : Nat → Bool) (fuel : Nat) (estr : E → String)
        (future : Nat → Option (Except E Unit)) (tm : TaskManager E)
        (res : Except String Unit) (tm' : TaskManager E) (s : SelSt E)
        (evs : List RaceEvent),
      run_until_exit workers regInt regTerm sched ib tb fuel estr future tm =
          some (res, tm', s, evs) →
        s.f.inner = future ∧ (∀ k, k + 1 < s.f.innerPolls → future k = none)) ∧
    (∀ (CS NC DB R E : Type) (self : Runner CS NC DB R)
        (runner : Configuration CS NC DB R →
          Except String ((Nat → Option (Except E Unit)) × TaskManager E))
        (workers : Nat) (regInt regTerm : Bool) (sched : Nat → Branch)
        (ib tb : Nat → Bool) (fuel : Nat) (estr : E → String)
        (future : Nat → Option (Except E Unit)) (tm : TaskManager E),
      runner self.config = Except.ok (future, tm) →
      async_run self runner workers regInt regTerm sched ib tb fuel estr =
        (run_until_exit workers regInt regTerm sched ib tb fuel estr future tm).map
          (fun o => (o.1, some o.2.1, o.2.2.2))) := by
  constructor
  · intro E workers regInt regTerm sched ib tb fuel estr future tm res tm' s evs h
    unfold run_until_exit at h
    cases hm : mainUnix regInt regTerm sched ib tb fuel (⟨future, 0, false⟩ : Fuse E) with
    | none => rw [hm] at h; cases h
    | some p =>
      obtain ⟨r, s₀⟩ := p
      rw [hm] at h
      obtain ⟨hfi, hfp⟩ := mainUnix_fuse regInt regTerm sched ib tb fuel future r s₀ hm
      have hs : s = s₀ := by
        cases r with
        | error e =>
          simp only [Option.some.injEq, Prod.mk.injEq] at h
          exact h.2.2.1.symm
        | ok u =>
          simp only [Option.some.injEq, Prod.mk.injEq] at h
          exact h.2.2.1.symm
      subst hs
      exact ⟨hfi, hfp⟩
  · intro CS NC DB R E self runner workers regInt regTerm sched ib tb fuel estr future tm hr
    cases hx : run_until_exit workers regInt regTerm sched ib tb fuel estr future tm with
    | none => simp [async_run, hr, hx]
    | some o =>
      obtain ⟨a, b, c, d⟩ := o
      simp [async_run, hr, hx]

/-- C9 witness: a primary completing on its first poll is polled exactly
once through the fuse. -/
theorem C9_fuse_discipline_witness :
    (fun _ : Nat => (some (Except.ok ()) : Option (Except String Unit))) =
        (fun _ : Nat => (some (Except.ok ()) : Option (Except String Unit))) ∧
      ∀ k : Nat, k + 1 < 1 →
        (fun _ : Nat => (some (Except.ok ()) : Option (Except String Unit))) k = none :=
  C9_fuse_discipline.1 String 0 true true (fun _ => Branch.prim) (fun _ => false)
    (fun _ => false) 1 id (fun _ => some (Except.ok ())) ⟨fun _ => none, 0⟩
    (Except.ok ()) ⟨fun _ => none, 1⟩
    ⟨0, 0, ⟨fun _ => some (Except.ok ()), 1, true⟩⟩
    [RaceEvent.raceEntered, RaceEvent.terminateCalled] rfl

/-- C1 counterexample: when the raced primary resolves first with an error,
`run_until_exit` returns the error with the task manager untouched — its
terminate-call count is still `0`, not `1`, on this exit path. -/
theorem C1_terminate_counterexample :
    run_until_exit 0 true true (fun _ => Branch.prim) (fun _ => false) (fun _ => false)
        1 id (fun _ => some (Except.error "boom")) ⟨fun _ => none, 0⟩ =
      some (Except.error "boom", ⟨fun _ => none, 0⟩,
        ⟨0, 0, ⟨fun _ => some (Except.error "boom"), 1, true⟩⟩,
        [RaceEvent.raceEntered]) :=
  rfl

/-- C1 (amended): in every asynchronous invocation mode, `terminate()` is
called exactly once after the race when the race resolves with success
(primary success or interrupt win); but when the race resolves with an error
(primary failure or signal-registration failure) the error is returned
without calling `terminate()`, in `run_until_exit` — hence in the
asynchronous subcommand variants and `async_run` — and likewise in
`run_node_until_exit`. -/
theorem C1_terminate_on_exit :
    (∀ (E : Type) (workers : Nat) (regInt regTerm : Bool) (sched : Nat → Branch)
        (ib tb : Nat → Bool) (fuel : Nat) (estr : E → String)
        (future : Nat → Option (Except E Unit)) (tm : TaskManager E)
        (res : Except String Unit) (tm' : TaskManager E) (s : SelSt E)
        (evs : List RaceEvent),
      run_until_exit workers regInt regTerm sched ib tb fuel estr future tm =
          some (res, tm', s, evs) →
        (res = Except.ok () →
          tm' = tm.terminate ∧ tm'.terminateCalls = tm.terminateCalls + 1) ∧
        (∀ msg, res = Except.error msg →
          tm' = tm ∧ tm'.terminateCalls = tm.terminateCalls)) ∧
    (∀ (CS NC DB R E SvcE : Type) (self : Runner CS NC DB R)
        (initialise : Configuration CS NC DB R → Except SvcE (TaskManager E))
        (svcStr : SvcE → String) (regInt regTerm : Bool) (sched : Nat → Branch)
        (ib tb : Nat → Bool) (fuel : Nat) (estr : E → String) (tm : TaskManager E)
        (res : Except String Unit) (tmOpt : Option (TaskManager E))
        (evs : List NodeEvent),
      initialise self.config = Except.ok tm →
      run_node_until_exit self initialise svcStr regInt regTerm sched ib tb fuel estr =
          some (res, tmOpt, evs) →
        (res = Except.ok () → tmOpt = some tm.terminate) ∧
        (∀ msg, res = Except.error msg → tmOpt = some tm)) := by
  constructor
  · intro E workers regInt regTerm sched ib tb fuel estr future tm res tm' s evs h
    unfold run_until_exit at h
    cases hm : mainUnix regInt regTerm sched ib tb fuel (⟨future, 0, false⟩ : Fuse E) with
    | none => rw [hm] at h; cases h
    | some p =>
      obtain ⟨r, s₀⟩ := p
      rw [hm] at h
      cases r with
      | error e =>
        simp only [Option.some.injEq, Prod.mk.injEq] at h
        obtain ⟨hres, htm, -, -⟩ := h
        constructor
        · intro hok
          rw [← hres] at hok
          cases hok
        · intro msg _
          exact ⟨htm.symm, by rw [← htm]⟩
      | ok u =>
        simp only [Option.some.injEq, Prod.mk.injEq] at h
        obtain ⟨hres, htm, -, -⟩ := h
        constructor
        · intro _
          refine ⟨htm.symm, ?_⟩
          rw [← htm]
          rfl
        · intro msg herr
          rw [← hres] at herr
          cases herr
  · intro CS NC DB R E SvcE self initialise svcStr regInt regTerm sched ib tb fuel
      estr tm res tmOpt evs hinit h
    cases hm : mainUnix regInt regTerm sched ib tb fuel
        (⟨tm.future, 0, false⟩ : Fuse E) with
    | none =>
      simp only [run_node_until_exit, hinit, hm] at h
      cases h
    | some p =>
      obtain ⟨r, s₀⟩ := p
      cases r with
      | error e =>
        simp only [run_node_until_exit, hinit, hm, Option.some.injEq,
          Prod.mk.injEq] at h
        obtain ⟨hres, htm, -⟩ := h
        constructor
        · intro hok
          rw [← hres] at hok
          cases hok
        · intro msg _
          exact htm.symm
      | ok u =>
        simp only [run_node_until_exit, hinit, hm, Option.some.injEq,
          Prod.mk.injEq] at h
        obtain ⟨hres, htm, -⟩ := h
        constructor
        · intro _
          exact htm.symm
        · intro msg herr
          rw [← hres] at herr
          cases herr

/-- C1 witness: a successful race terminates the task manager exactly
once. -/
theorem C1_terminate_on_exit_witness :
    ((Except.ok () : Except String Unit) = Except.ok () →
      (⟨fun _ => none, 1⟩ : TaskManager String) =
          TaskManager.terminate ⟨fun _ => none, 0⟩ ∧
        (⟨fun _ => none, 1⟩ : TaskManager String).terminateCalls =
          (⟨fun _ => none, 0⟩ : TaskManager String).terminateCalls + 1) ∧
    (∀ msg, (Except.ok () : Except String Unit) = Except.error msg →
      (⟨fun _ => none, 1⟩ : TaskManager String) = ⟨fun _ => none, 0⟩ ∧
        (⟨fun _ => none, 1⟩ : TaskManager String).terminateCalls =
          (⟨fun _ => none, 0⟩ : TaskManager String).terminateCalls) :=
  C1_terminate_on_exit.1 String 0 true true (fun _ => Branch.prim) (fun _ => false)
    (fun _ => false) 1 id (fun _ => some (Except.ok ())) ⟨fun _ => none, 0⟩
    (Except.ok ()) ⟨fun _ => none, 1⟩
    ⟨0, 0, ⟨fun _ => some (Except.ok ()), 1, true⟩⟩
    [RaceEvent.raceEntered, RaceEvent.terminateCalled] rfl

/-- C8: `run_node_until_exit` performs its steps in the fixed order — log
the node information (name, version, authorship, chain name, node name,
role, database, native runtime identifier, in that order), call the
initialiser, race the task manager's aggregate future against the interrupt
listeners, then terminate and drop the task manager; every run's trace is an
in-order initial segment of this step list, and a successful run performs
every step. -/
theorem C8_node_step_order :
    (∀ (CS NC DB R E SvcE : Type) (self : Runner CS NC DB R)
        (initialise : Configuration CS NC DB R → Except SvcE (TaskManager E))
        (svcStr : SvcE → String) (regInt regTerm : Bool) (sched : Nat → Branch)
        (ib tb : Nat → Bool) (fuel : Nat) (estr : E → String)
        (res : Except String Unit) (tmOpt : Option (TaskManager E))
        (evs : List NodeEvent),
      run_node_until_exit self initialise svcStr regInt regTerm sched ib tb fuel estr =
          some (res, tmOpt, evs) →
        (evs = nodeSteps.take 2 ∨ evs = nodeSteps.take 3 ∨ evs = nodeSteps) ∧
        (res = Except.ok () → evs = nodeSteps)) ∧
    print_node_infos = [LogField.implName, LogField.version, LogField.authorship,
      LogField.chainSpecName, LogField.nodeName, LogField.role, LogField.database,
      LogField.nativeRuntime] := by
  constructor
  · intro CS NC DB R E SvcE self initialise svcStr regInt regTerm sched ib tb fuel
      estr res tmOpt evs h
    cases hinit : initialise self.config with
    | error e =>
      simp only [run_node_until_exit, hinit, Option.some.injEq, Prod.mk.injEq] at h
      obtain ⟨hres, -, hevs⟩ := h
      constructor
      · left
        exact hevs.symm
      · intro hok
        rw [← hres] at hok
        cases hok
    | ok tm =>
      cases hm : mainUnix regInt regTerm sched ib tb fuel
          (⟨tm.future, 0, false⟩ : Fuse E) with
      | none =>
        simp only [run_node_until_exit, hinit, hm] at h
        cases h
      | some p =>
        obtain ⟨r, s₀⟩ := p
        cases r with
        | error e =>
          simp only [run_node_until_exit, hinit, hm, Option.some.injEq,
            Prod.mk.injEq] at h
          obtain ⟨hres, -, hevs⟩ := h
          constructor
          · right; left
            exact hevs.symm
          · intro hok
            rw [← hres] at hok
            cases hok
        | ok u =>
          simp only [run_node_until_exit, hinit, hm, Option.some.injEq,
            Prod.mk.injEq] at h
          obtain ⟨-, -, hevs⟩ := h
          exact ⟨Or.inr (Or.inr hevs.symm), fun _ => hevs.symm⟩
  · rfl

/-- C8 witness: a node run whose aggregate future succeeds at once performs
the full ordered step list. -/
theorem C8_node_step_order_witness :
    (nodeSteps = nodeSteps.take 2 ∨ nodeSteps = nodeSteps.take 3 ∨
      nodeSteps = nodeSteps) ∧
    ((Except.ok () : Except String Unit) = Except.ok () → nodeSteps = nodeSteps) :=
  (C8_node_step_order.1 Nat Nat Nat Nat String Nat ⟨⟨0, 0, 0, 0⟩⟩
    (fun _ => Except.ok ⟨fun _ => some (Except.ok ()), 0⟩) (fun _ => "") true true
    (fun _ => Branch.prim) (fun _ => false) (fun _ => false) 1 id (Except.ok ())
    (some ⟨fun _ => some (Except.ok ()), 1⟩) nodeSteps rfl)

/-- C5: in every asynchronous invocation mode, an error from the
caller-supplied builder (`run_subcommand`), initialiser
(`run_node_until_exit`) or runner function (`async_run`) is returned
directly: no task manager is produced, the shutdown race is never entered
and no terminate call or pool event appears in the trace. -/
theorem C5_builder_error_aborts :
    (∀ (CS NC DB R CL BA IQ E SvcE : Type) (self : Runner CS NC DB R)
        (sub : Subcommand CS NC DB CL BA IQ E)
        (builder : Configuration CS NC DB R → Except SvcE (CL × BA × IQ × TaskManager E))
        (svcStr : SvcE → String) (workers : Nat) (regInt regTerm : Bool)
        (sched : Nat → Branch) (ib tb : Nat → Bool) (fuel : Nat) (estr : E → String)
        (e : SvcE),
      isAsyncVariant sub = true → builder self.config = Except.error e →
      run_subcommand self sub builder svcStr workers regInt regTerm sched ib tb
          fuel estr =
        some (Except.error (svcStr e), none, [SubEvent.builderInvoked])) ∧
    (∀ (CS NC DB R E SvcE : Type) (self : Runner CS NC DB R)
        (initialise : Configuration CS NC DB R → Except SvcE (TaskManager E))
        (svcStr : SvcE → String) (regInt regTerm : Bool) (sched : Nat → Branch)
        (ib tb : Nat → Bool) (fuel : Nat) (estr : E → String) (e : SvcE),
      initialise self.config = Except.error e →
      run_node_until_exit self initialise svcStr regInt regTerm sched ib tb fuel estr =
        some (Except.error (svcStr e), none,
          [NodeEvent.printedNodeInfos print_node_infos, NodeEvent.initialiseCalled])) ∧
    (∀ (CS NC DB R E : Type) (self : Runner CS NC DB R)
        (runner : Configuration CS NC DB R →
          Except String ((Nat → Option (Except E Unit)) × TaskManager E))
        (workers : Nat) (regInt regTerm : Bool) (sched : Nat → Branch)
        (ib tb : Nat → Bool) (fuel : Nat) (estr : E → String) (msg : String),
      runner self.config = Except.error msg →
      async_run self runner workers regInt regTerm sched ib tb fuel estr =
        some (Except.error msg, none, [])) := by
  refine ⟨?_, ?_, ?_⟩
  · intro CS NC DB R CL BA IQ E SvcE self sub builder svcStr workers regInt regTerm
      sched ib tb fuel estr e hasync hb
    cases sub with
    | buildSpec cmd => simp [isAsyncVariant] at hasync
    | purgeChain cmd => simp [isAsyncVariant] at hasync
    | exportBlocks cmd => simp [run_subcommand, hb]
    | importBlocks cmd => simp [run_subcommand, hb]
    | checkBlock cmd => simp [run_subcommand, hb]
    | revert cmd => simp [run_subcommand, hb]
    | exportState cmd => simp [run_subcommand, hb]
  · intro CS NC DB R E SvcE self initialise svcStr regInt regTerm sched ib tb fuel
      estr e hinit
    simp [run_node_until_exit, hinit]
  · intro CS NC DB R E self runner workers regInt regTerm sched ib tb fuel estr msg hr
    simp [async_run, hr]

/-- C5 witness: a failing builder on `ExportBlocks` yields the builder's
error with no task manager and only the builder-invocation event. -/
theorem C5_builder_error_aborts_witness :
    run_subcommand (⟨⟨0, 0, 0, 0⟩⟩ : Runner Nat Nat Nat Nat)
        (Subcommand.exportBlocks (fun _ _ _ => none) :
          Subcommand Nat Nat Nat Nat Nat Nat String)
        (fun _ => (Except.error 42 : Except Nat (Nat × Nat × Nat × TaskManager String)))
        (fun n => toString n) 0 true true (fun _ => Branch.prim) (fun _ => false)
        (fun _ => false) 1 id =
      some (Except.error "42", none, [SubEvent.builderInvoked]) :=
  C5_builder_error_aborts.1 Nat Nat Nat Nat Nat Nat Nat String Nat ⟨⟨0, 0, 0, 0⟩⟩
    (Subcommand.exportBlocks (fun _ _ _ => none))
    (fun _ => Except.error 42) (fun n => toString n) 0 true true
    (fun _ => Branch.prim) (fun _ => false) (fun _ => false) 1 id 42 rfl rfl

/-- C4 counterexample: for the `BuildSpec` variant the builder is invoked
zero times, not exactly once — `run_subcommand` completes with a trace
holding no builder invocation. -/
theorem C4_builder_once_counterexample :
    run_subcommand (⟨⟨0, 0, 0, 0⟩⟩ : Runner Nat Nat Nat Nat)
        (Subcommand.buildSpec (fun _ _ => Except.ok ()) :
          Subcommand Nat Nat Nat Nat Nat Nat String)
        (fun _ => Except.ok (1, 2, 3, ⟨fun _ => none, 0⟩))
        (fun n : Nat => toString n) 0 true true (fun _ => Branch.prim)
        (fun _ => false) (fun _ => false) 1 id =
      some (Except.ok (), none, [SubEvent.ranBuildSpec 0 0]) ∧
    countBuilderInvocations
      [(SubEvent.ranBuildSpec 0 0 : SubEvent Nat Nat Nat Nat Nat Nat)] = 0 :=
  ⟨rfl, rfl⟩

/-- C4 (amended): every asynchronous variant invokes the builder exactly
once (whether the builder succeeds or fails), the synchronous variants
`BuildSpec` and `PurgeChain` never invoke it, and on builder success each
asynchronous variant passes to its `run` entry point only its own subset of
the builder's outputs — `ExportBlocks` and `ExportState` the client only,
`ImportBlocks` and `CheckBlock` the client and import queue, `Revert` the
client and backend — with the task manager consumed by the race's terminate
step. -/
theorem C4_builder_once :
    (∀ (CS NC DB R CL BA IQ E SvcE : Type) (self : Runner CS NC DB R)
        (sub : Subcommand CS NC DB CL BA IQ E)
        (builder : Configuration CS NC DB R → Except SvcE (CL × BA × IQ × TaskManager E))
        (svcStr : SvcE → String) (workers : Nat) (regInt regTerm : Bool)
        (sched : Nat → Branch) (ib tb : Nat → Bool) (fuel : Nat) (estr : E → String)
        (res : Except String Unit) (tmOpt : Option (TaskManager E))
        (evs : List (SubEvent CS NC DB CL BA IQ)),
      run_subcommand self sub builder svcStr workers regInt regTerm sched ib tb
          fuel estr = some (res, tmOpt, evs) →
        (isAsyncVariant sub = true → countBuilderInvocations evs = 1) ∧
        (isAsyncVariant sub = false →
          countBuilderInvocations evs = 0 ∧ tmOpt = none)) ∧
    (∀ (CS NC DB R CL BA IQ E SvcE : Type) (self : Runner CS NC DB R)
        (cmd : CL → DB → Nat → Option (Except E Unit))
        (builder : Configuration CS NC DB R → Except SvcE (CL × BA × IQ × TaskManager E))
        (svcStr : SvcE → String) (workers : Nat) (regInt regTerm : Bool)
        (sched : Nat → Branch) (ib tb : Nat → Bool) (fuel : Nat) (estr : E → String)
        (client : CL) (backend : BA) (import_queue : IQ) (tm : TaskManager E),
      builder self.config = Except.ok (client, backend, import_queue, tm) →
      run_subcommand self (Subcommand.exportBlocks cmd) builder svcStr workers
          regInt regTerm sched ib tb fuel estr =
        (run_until_exit workers regInt regTerm sched ib tb fuel estr
            (cmd client self.config.database) tm).map
          (fun o => (o.1, some o.2.1,
            SubEvent.builderInvoked ::
              SubEvent.ranExportBlocks client self.config.database ::
                o.2.2.2.map toSubEvent))) ∧
    (∀ (CS NC DB R CL BA IQ E SvcE : Type) (self : Runner CS NC DB R)
        (cmd : CL → IQ → Nat → Option (Except E Unit))
        (builder : Configuration CS NC DB R → Except SvcE (CL × BA × IQ × TaskManager E))
        (svcStr : SvcE → String) (workers : Nat) (regInt regTerm : Bool)
        (sched : Nat → Branch) (ib tb : Nat → Bool) (fuel : Nat) (estr : E → String)
        (client : CL) (backend : BA) (import_queue : IQ) (tm : TaskManager E),
      builder self.config = Except.ok (client, backend, import_queue, tm) →
      run_subcommand self (Subcommand.importBlocks cmd) builder svcStr workers
          regInt regTerm sched ib tb fuel estr =
        (run_until_exit workers regInt regTerm sched ib tb fuel estr
            (cmd client import_queue) tm).map
          (fun o => (o.1, some o.2.1,
            SubEvent.builderInvoked ::
              SubEvent.ranImportBlocks client import_queue ::
                o.2.2.2.map toSubEvent))) ∧
    (∀ (CS NC DB R CL BA IQ E SvcE : Type) (self : Runner CS NC DB R)
        (cmd : CL → IQ → Nat → Option (Except E Unit))
        (builder : Configuration CS NC DB R → Except SvcE (CL × BA × IQ × TaskManager E))
        (svcStr : SvcE → String) (workers : Nat) (regInt regTerm : Bool)
        (sched : Nat → Branch) (ib tb : Nat → Bool) (fuel : Nat) (estr : E → String)
        (client : CL) (backend : BA) (import_queue : IQ) (tm : TaskManager E),
      builder self.config = Except.ok (client, backend, import_queue, tm) →
      run_subcommand self (Subcommand.checkBlock cmd) builder svcStr workers
          regInt regTerm sched ib tb fuel estr =
        (run_until_exit workers regInt regTerm sched ib tb fuel estr
            (cmd client import_queue) tm).map
          (fun o => (o.1, some o.2.1,
            SubEvent.builderInvoked ::
              SubEvent.ranCheckBlock client import_queue ::
                o.2.2.2.map toSubEvent))) ∧
    (∀ (CS NC DB R CL BA IQ E SvcE : Type) (self : Runner CS NC DB R)
        (cmd : CL → BA → Nat → Option (Except E Unit))
        (builder : Configuration CS NC DB R → Except SvcE (CL × BA × IQ × TaskManager E))
        (svcStr : SvcE → String) (workers : Nat) (regInt regTerm : Bool)
        (sched : Nat → Branch) (ib tb : Nat → Bool) (fuel : Nat) (estr : E → String)
        (client : CL) (backend : BA) (import_queue : IQ) (tm : TaskManager E),
      builder self.config = Except.ok (client, backend, import_queue, tm) →
      run_subcommand self (Subcommand.revert cmd) builder svcStr workers
          regInt regTerm sched ib tb fuel estr =
        (run_until_exit workers regInt regTerm sched ib tb fuel estr
            (cmd client backend) tm).map
          (fun o => (o.1, some o.2.1,
            SubEvent.builderInvoked ::
              SubEvent.ranRevert client backend ::
                o.2.2.2.map toSubEvent))) ∧
    (∀ (CS NC DB R CL BA IQ E SvcE : Type) (self : Runner CS NC DB R)
        (cmd : CL → CS → Nat → Option (Except E Unit))
        (builder : Configuration CS NC DB R → Except SvcE (CL × BA × IQ × TaskManager E))
        (svcStr : SvcE → String) (workers : Nat) (regInt regTerm : Bool)
        (sched : Nat → Branch) (ib tb : Nat → Bool) (fuel : Nat) (estr : E → String)
        (client : CL) (backend : BA) (import_queue : IQ) (tm : TaskManager E),
      builder self.config = Except.ok (client, backend, import_queue, tm) →
      run_subcommand self (Subcommand.exportState cmd) builder svcStr workers
          regInt regTerm sched ib tb fuel estr =
        (run_until_exit workers regInt regTerm sched ib tb fuel estr
            (cmd client self.config.chain_spec) tm).map
          (fun o => (o.1, some o.2.1,
            SubEvent.builderInvoked ::
              SubEvent.ranExportState client self.config.chain_spec ::
                o.2.2.2.map toSubEvent))) := by
  refine ⟨?_, ?_, ?_, ?_, ?_, ?_⟩
  · intro CS NC DB R CL BA IQ E SvcE self sub builder svcStr workers regInt regTerm
      sched ib tb fuel estr res tmOpt evs h
    cases sub with
    | buildSpec cmd =>
      simp only [run_subcommand, Option.some.injEq, Prod.mk.injEq] at h
      obtain ⟨-, htm, hevs⟩ := h
      refine ⟨fun hc => by simp [isAsyncVariant] at hc, fun _ => ⟨?_, htm.symm⟩⟩
      rw [← hevs]
      rfl
    | purgeChain cmd =>
      simp only [run_subcommand, Option.some.injEq, Prod.mk.injEq] at h
      obtain ⟨-, htm, hevs⟩ := h
      refine ⟨fun hc => by simp [isAsyncVariant] at hc, fun _ => ⟨?_, htm.symm⟩⟩
      rw [← hevs]
      rfl
    | exportBlocks cmd =>
      refine ⟨fun _ => ?_, fun hc => by simp [isAsyncVariant] at hc⟩
      cases hb : builder self.config with
      | error e =>
        simp only [run_subcommand, hb, Option.some.injEq, Prod.mk.injEq] at h
        obtain ⟨-, -, hevs⟩ := h
        rw [← hevs]
        rfl
      | ok q =>
        obtain ⟨client, backend, import_queue, tm⟩ := q
        cases hx : run_until_exit workers regInt regTerm sched ib tb fuel estr
            (cmd client self.config.database) tm with
        | none =>
          simp only [run_subcommand, hb, hx] at h
          cases h
        | some o =>
          obtain ⟨r0, tm0, s0, evs0⟩ := o
          simp only [run_subcommand, hb, hx, Option.some.injEq, Prod.mk.injEq] at h
          obtain ⟨-, -, hevs⟩ := h
          rw [← hevs]
          exact countBuilderInvocations_async_trace
            (SubEvent.ranExportBlocks client self.config.database) rfl evs0
    | importBlocks cmd =>
      refine ⟨fun _ => ?_, fun hc => by simp [isAsyncVariant] at hc⟩
      cases hb : builder self.config with
      | error e =>
        simp only [run_subcommand, hb, Option.some.injEq, Prod.mk.injEq] at h
        obtain ⟨-, -, hevs⟩ := h
        rw [← hevs]
        rfl
      | ok q =>
        obtain ⟨client, backend, import_queue, tm⟩ := q
        cases hx : run_until_exit workers regInt regTerm sched ib tb fuel estr
            (cmd client import_queue) tm with
        | none =>
          simp only [run_subcommand, hb, hx] at h
          cases h
        | some o =>
          obtain ⟨r0, tm0, s0, evs0⟩ := o
          simp only [run_subcommand, hb, hx, Option.some.injEq, Prod.mk.injEq] at h
          obtain ⟨-, -, hevs⟩ := h
          rw [← hevs]
          exact countBuilderInvocations_async_trace
            (SubEvent.ranImportBlocks client import_queue) rfl evs0
    | checkBlock cmd =>
      refine ⟨fun _ => ?_, fun hc => by simp [isAsyncVariant] at hc⟩
      cases hb : builder self.config with
      | error e =>
        simp only [run_subcommand, hb, Option.some.injEq, Prod.mk.injEq] at h
        obtain ⟨-, -, hevs⟩ := h
        rw [← hevs]
        rfl
      | ok q =>
        obtain ⟨client, backend, import_queue, tm⟩ := q
        cases hx : run_until_exit workers regInt regTerm sched ib tb fuel estr
            (cmd client import_queue) tm with
        | none =>
          simp only [run_subcommand, hb, hx] at h
          cases h
        | some o =>
          obtain ⟨r0, tm0, s0, evs0⟩ := o
          simp only [run_subcommand, hb, hx, Option.some.injEq, Prod.mk.injEq] at h
          obtain ⟨-, -, hevs⟩ := h
          rw [← hevs]
          exact countBuilderInvocations_async_trace
            (SubEvent.ranCheckBlock client import_queue) rfl evs0
    | revert cmd =>
      refine ⟨fun _ => ?_, fun hc => by simp [isAsyncVariant] at hc⟩
      cases hb : builder self.config with
      | error e =>
        simp only [run_subcommand, hb, Option.some.injEq, Prod.mk.injEq] at h
        obtain ⟨-, -, hevs⟩ := h
        rw [← hevs]
        rfl
      | ok q =>
        obtain ⟨client, backend, import_queue, tm⟩ := q
        cases hx : run_until_exit workers regInt regTerm sched ib tb fuel estr
            (cmd client backend) tm with
        | none =>
          simp only [run_subcommand, hb, hx] at h
          cases h
        | some o =>
          obtain ⟨r0, tm0, s0, evs0⟩ := o
          simp only [run_subcommand, hb, hx, Option.some.injEq, Prod.mk.injEq] at h
          obtain ⟨-, -, hevs⟩ := h
          rw [← hevs]
          exact countBuilderInvocations_async_trace
            (SubEvent.ranRevert client backend) rfl evs0
    | exportState cmd =>
      refine ⟨fun _ => ?_, fun hc => by simp [isAsyncVariant] at hc⟩
      cases hb : builder self.config with
      | error e =>
        simp only [run_subcommand, hb, Option.some.injEq, Prod.mk.injEq] at h
        obtain ⟨-, -, hevs⟩ := h
        rw [← hevs]
        rfl
      | ok q =>
        obtain ⟨client, backend, import_queue, tm⟩ := q
        cases hx : run_until_exit workers regInt regTerm sched ib tb fuel estr
            (cmd client self.config.chain_spec) tm with
        | none =>
          simp only [run_subcommand, hb, hx] at h
          cases h
        | some o =>
          obtain ⟨r0, tm0, s0, evs0⟩ := o
          simp only [run_subcommand, hb, hx, Option.some.injEq, Prod.mk.injEq] at h
          obtain ⟨-, -, hevs⟩ := h
          rw [← hevs]
          exact countBuilderInvocations_async_trace
            (SubEvent.ranExportState client self.config.chain_spec) rfl evs0
  · intro CS NC DB R CL BA IQ E SvcE self cmd builder svcStr workers regInt regTerm
      sched ib tb fuel estr client backend import_queue tm hb
    cases hx : run_until_exit workers regInt regTerm sched ib tb fuel estr
        (cmd client self.config.database) tm with
    | none => simp [run_subcommand, hb, hx]
    | some o =>
      obtain ⟨a, b, c, d⟩ := o
      simp [run_subcommand, hb, hx]
  · intro CS NC DB R CL BA IQ E SvcE self cmd builder svcStr workers regInt regTerm
      sched ib tb fuel estr client backend import_queue tm hb
    cases hx : run_until_exit workers regInt regTerm sched ib tb fuel estr
        (cmd client import_queue) tm with
    | none => simp [run_subcommand, hb, hx]
    | some o =>
      obtain ⟨a, b, c, d⟩ := o
      simp [run_subcommand, hb, hx]
  · intro CS NC DB R CL BA IQ E SvcE self cmd builder svcStr workers regInt regTerm
      sched ib tb fuel estr client backend import_queue tm hb
    cases hx : run_until_exit workers regInt regTerm sched ib tb fuel estr
        (cmd client import_queue) tm with
    | none => simp [run_subcommand, hb, hx]
    | some o =>
      obtain ⟨a, b, c, d⟩ := o
      simp [run_subcommand, hb, hx]
  · intro CS NC DB R CL BA IQ E SvcE self cmd builder svcStr workers regInt regTerm
      sched ib tb fuel estr client backend import_queue tm hb
    cases hx : run_until_exit workers regInt regTerm sched ib tb fuel estr
        (cmd client backend) tm with
    | none => simp [run_subcommand, hb, hx]
    | some o =>
      obtain ⟨a, b, c, d⟩ := o
      simp [run_subcommand, hb, hx]
  · intro CS NC DB R CL BA IQ E SvcE self cmd builder svcStr workers regInt regTerm
      sched ib tb fuel estr client backend import_queue tm hb
    cases hx : run_until_exit workers regInt regTerm sched ib tb fuel estr
        (cmd client self.config.chain_spec) tm with
    | none => simp [run_subcommand, hb, hx]
    | some o =>
      obtain ⟨a, b, c, d⟩ := o
      simp [run_subcommand, hb, hx]

/-- C4 witness: a successful `ExportBlocks` run records exactly one builder
invocation. -/
theorem C4_builder_once_witness :
    countBuilderInvocations
      [(SubEvent.builderInvoked : SubEvent Nat Nat Nat Nat Nat Nat),
        SubEvent.ranExportBlocks 1 0, SubEvent.raceEntered,
        SubEvent.terminateCalled] = 1 :=
  ((C4_builder_once.1 Nat Nat Nat Nat Nat Nat Nat String Nat ⟨⟨0, 0, 0, 0⟩⟩
      (Subcommand.exportBlocks (fun _ _ _ => some (Except.ok ())))
      (fun _ => Except.ok (1, 2, 3, ⟨fun _ => none, 0⟩))
      (fun n : Nat => toString n) 0 true true (fun _ => Branch.prim)
      (fun _ => false) (fun _ => false) 1 id (Except.ok ())
      (some ⟨fun _ => none, 1⟩)
      [SubEvent.builderInvoked, SubEvent.ranExportBlocks 1 0, SubEvent.raceEntered,
        SubEvent.terminateCalled] rfl).1 rfl)

/-- C10: the chain specification, network section and database section that
`run_subcommand` passes to any variant's `run` entry point are the clones
taken from the configuration before the builder is invoked — for every
builder, every recorded argument equals the corresponding configuration
field. -/
theorem C10_pre_builder_snapshot :
    ∀ (CS NC DB R CL BA IQ E SvcE : Type) (self : Runner CS NC DB R)
      (sub : Subcommand CS NC DB CL BA IQ E)
      (builder : Configuration CS NC DB R → Except SvcE (CL × BA × IQ × TaskManager E))
      (svcStr : SvcE → String) (workers : Nat) (regInt regTerm : Bool)
      (sched : Nat → Branch) (ib tb : Nat → Bool) (fuel : Nat) (estr : E → String)
      (res : Except String Unit) (tmOpt : Option (TaskManager E))
      (evs : List (SubEvent CS NC DB CL BA IQ)),
      run_subcommand self sub builder svcStr workers regInt regTerm sched ib tb
          fuel estr = some (res, tmOpt, evs) →
      ∀ e ∈ evs, snapshotProp self.config e := by
  intro CS NC DB R CL BA IQ E SvcE self sub builder svcStr workers regInt regTerm
    sched ib tb fuel estr res tmOpt evs h
  cases sub with
  | buildSpec cmd =>
    simp only [run_subcommand, Option.some.injEq, Prod.mk.injEq] at h
    obtain ⟨-, -, hevs⟩ := h
    intro e he
    rw [← hevs] at he
    simp only [List.mem_singleton] at he
    subst he
    exact ⟨rfl, rfl⟩
  | purgeChain cmd =>
    simp only [run_subcommand, Option.some.injEq, Prod.mk.injEq] at h
    obtain ⟨-, -, hevs⟩ := h
    intro e he
    rw [← hevs] at he
    simp only [List.mem_singleton] at he
    subst he
    exact rfl
  | exportBlocks cmd =>
    cases hb : builder self.config with
    | error er =>
      simp only [run_subcommand, hb, Option.some.injEq, Prod.mk.injEq] at h
      obtain ⟨-, -, hevs⟩ := h
      intro e he
      rw [← hevs] at he
      simp only [List.mem_singleton] at he
      subst he
      trivial
    | ok q =>
      obtain ⟨client, backend, import_queue, tm⟩ := q
      cases hx : run_until_exit workers regInt regTerm sched ib tb fuel estr
          (cmd client self.config.database) tm with
      | none =>
        simp only [run_subcommand, hb, hx] at h
        cases h
      | some o =>
        obtain ⟨r0, tm0, s0, evs0⟩ := o
        simp only [run_subcommand, hb, hx, Option.some.injEq, Prod.mk.injEq] at h
        obtain ⟨-, -, hevs⟩ := h
        intro e he
        rw [← hevs] at he
        simp only [List.mem_cons] at he
        rcases he with rfl | rfl | he
        · trivial
        · exact rfl
        · rcases mem_map_toSubEvent he with rfl | rfl | rfl <;> trivial
  | importBlocks cmd =>
    cases hb : builder self.config with
    | error er =>
      simp only [run_subcommand, hb, Option.some.injEq, Prod.mk.injEq] at h
      obtain ⟨-, -, hevs⟩ := h
      intro e he
      rw [← hevs] at he
      simp only [List.mem_singleton] at he
      subst he
      trivial
    | ok q =>
      obtain ⟨client, backend, import_queue, tm⟩ := q
      cases hx : run_until_exit workers regInt regTerm sched ib tb fuel estr
          (cmd client import_queue) tm with
      | none =>
        simp only [run_subcommand, hb, hx] at h
        cases h
      | some o =>
        obtain ⟨r0, tm0, s0, evs0⟩ := o
        simp only [run_subcommand, hb, hx, Option.some.injEq, Prod.mk.injEq] at h
        obtain ⟨-, -, hevs⟩ := h
        intro e he
        rw [← hevs] at he
        simp only [List.mem_cons] at he
        rcases he with rfl | rfl | he
        · trivial
        · trivial
        · rcases mem_map_toSubEvent he with rfl | rfl | rfl <;> trivial
  | checkBlock cmd =>
    cases hb : builder self.config with
    | error er =>
      simp only [run_subcommand, hb, Option.some.injEq, Prod.mk.injEq] at h
      obtain ⟨-, -, hevs⟩ := h
      intro e he
      rw [← hevs] at he
      simp only [List.mem_singleton] at he
      subst he
      trivial
    | ok q =>
      obtain ⟨client, backend, import_queue, tm⟩ := q
      cases hx : run_until_exit workers regInt regTerm sched ib tb fuel estr
          (cmd client import_queue) tm with
      | none =>
        simp only [run_subcommand, hb, hx] at h
        cases h
      | some o =>
        obtain ⟨r0, tm0, s0, evs0⟩ := o
        simp only [run_subcommand, hb, hx, Option.some.injEq, Prod.mk.injEq] at h
        obtain ⟨-, -, hevs⟩ := h
        intro e he
        rw [← hevs] at he
        simp only [List.mem_cons] at he
        rcases he with rfl | rfl | he
        · trivial
        · trivial
        · rcases mem_map_toSubEvent he with rfl | rfl | rfl <;> trivial
  | revert cmd =>
    cases hb : builder self.config with
    | error er =>
      simp only [run_subcommand, hb, Option.some.injEq, Prod.mk.injEq] at h
      obtain ⟨-, -, hevs⟩ := h
      intro e he
      rw [← hevs] at he
      simp only [List.mem_singleton] at he
      subst he
      trivial
    | ok q =>
      obtain ⟨client, backend, import_queue, tm⟩ := q
      cases hx : run_until_exit workers regInt regTerm sched ib tb fuel estr
          (cmd client backend) tm with
      | none =>
        simp only [run_subcommand, hb, hx] at h
        cases h
      | some o =>
        obtain ⟨r0, tm0, s0, evs0⟩ := o
        simp only [run_subcommand, hb, hx, Option.some.injEq, Prod.mk.injEq] at h
        obtain ⟨-, -, hevs⟩ := h
        intro e he
        rw [← hevs] at he
        simp only [List.mem_cons] at he
        rcases he with rfl | rfl | he
        · trivial
        · trivial
        · rcases mem_map_toSubEvent he with rfl | rfl | rfl <;> trivial
  | exportState cmd =>
    cases hb : builder self.config with
    | error er =>
      simp only [run_subcommand, hb, Option.some.injEq, Prod.mk.injEq] at h
      obtain ⟨-, -, hevs⟩ := h
      intro e he
      rw [← hevs] at he
      simp only [List.mem_singleton] at he
      subst he
      trivial
    | ok q =>
      obtain ⟨client, backend, import_queue, tm⟩ := q
      cases hx : run_until_exit workers regInt regTerm sched ib tb fuel estr
          (cmd client self.config.chain_spec) tm with
      | none =>
        simp only [run_subcommand, hb, hx] at h
        cases h
      | some o =>
        obtain ⟨r0, tm0, s0, evs0⟩ := o
        simp only [run_subcommand, hb, hx, Option.some.injEq, Prod.mk.injEq] at h
        obtain ⟨-, -, hevs⟩ := h
        intro e he
        rw [← hevs] at he
        simp only [List.mem_cons] at he
        rcases he with rfl | rfl | he
        · trivial
        · exact rfl
        · rcases mem_map_toSubEvent he with rfl | rfl | rfl <;> trivial

/-- C10 witness: the values recorded for a `BuildSpec` run equal the
configuration's own chain specification and network section. -/
theorem C10_pre_builder_snapshot_witness :
    snapshotProp (⟨⟨0, 0, 0, 0⟩⟩ : Runner Nat Nat Nat Nat).config
      (SubEvent.ranBuildSpec 0 0 : SubEvent Nat Nat Nat Nat Nat Nat) :=
  C10_pre_builder_snapshot Nat Nat Nat Nat Nat Nat Nat String Nat ⟨⟨0, 0, 0, 0⟩⟩
    (Subcommand.buildSpec (fun _ _ => Except.ok ()))
    (fun _ => Except.ok (1, 2, 3, ⟨fun _ => none, 0⟩))
    (fun n : Nat => toString n) 0 true true (fun _ => Branch.prim)
    (fun _ => false) (fun _ => false) 1 id (Except.ok ()) none
    [SubEvent.ranBuildSpec 0 0] rfl (SubEvent.ranBuildSpec 0 0)
    (List.mem_singleton.mpr rfl)

end ScCli
